import Mathlib

/-!
Verification of the seshat full-text index layer (src/index.rs) and the
node-binding query-argument parsing (seshat-node/native/src/lib.rs).

The external text-search library (tantivy) is shallowly embedded: schemas,
documents and the two top-K collectors are modelled concretely from their
documented behaviour, while per-index data (which documents match a query,
the fast-field values, the document store) are abstract components of the
searcher state. Machine floats (relevance scores, JS numbers) are modelled
as rationals: the code never computes with them, it only stores, compares
and forwards them.
-/

namespace Seshat

/-- Event identifier (crate::types::EventId, a String alias). -/
abbrev EventId := String

/-- Room identifier (crate::types::RoomId, a String alias). -/
abbrev RoomId := String

/-- tantivy field handle: the position of the field in the schema. -/
abbrev Field := Nat

/-- Options of a text field. tv::schema::TEXT is indexed (tokenized) and not
stored; tv::schema::STORED is stored and not indexed. -/
structure TextOptions where
  indexed : Bool
  stored : Bool
deriving DecidableEq, Repr

/-- tv::schema::TEXT: tokenized and indexed, not stored. -/
def TEXT : TextOptions := ⟨true, false⟩

/-- tv::schema::STORED: stored only, not indexed. -/
def STORED : TextOptions := ⟨false, true⟩

/-- Options of a u64 field. tv::schema::FAST marks a fast-access column. -/
structure IntOptions where
  fast : Bool
  indexed : Bool
  stored : Bool
deriving DecidableEq, Repr

/-- tv::schema::FAST: fast-access, not indexed, not stored. -/
def FAST : IntOptions := ⟨true, false, false⟩

/-- The type and options of one declared field. -/
inductive FieldType where
  | text (opts : TextOptions)
  | u64 (opts : IntOptions)
deriving DecidableEq, Repr

/-- One schema entry: a field name with its type and options. -/
structure FieldEntry where
  name : String
  ty : FieldType
deriving DecidableEq, Repr

/-- A built schema: the declared fields in declaration order. -/
abbrev Schema := List FieldEntry

/-- tv::schema::SchemaBuilder: accumulates field declarations. -/
structure SchemaBuilder where
  fields : List FieldEntry

/-- SchemaBuilder::add_text_field: declares a text field, returning its handle.
The handle is the index of the field in declaration order. -/
def SchemaBuilder.add_text_field (b : SchemaBuilder) (name : String)
    (opts : TextOptions) : Field × SchemaBuilder :=
  (b.fields.length, ⟨b.fields ++ [⟨name, FieldType.text opts⟩]⟩)

/-- SchemaBuilder::add_u64_field: declares a u64 field, returning its handle. -/
def SchemaBuilder.add_u64_field (b : SchemaBuilder) (name : String)
    (opts : IntOptions) : Field × SchemaBuilder :=
  (b.fields.length, ⟨b.fields ++ [⟨name, FieldType.u64 opts⟩]⟩)

/-- SchemaBuilder::build. -/
def SchemaBuilder.build (b : SchemaBuilder) : Schema := b.fields

/-- tantivy document value: a text or u64 payload. -/
inductive Value where
  | str (s : String)
  | u64 (n : Nat)
deriving DecidableEq, Repr

/-- Value::text(): the text payload, if the value is text. -/
def Value.text : Value → Option String
  | .str s => some s
  | .u64 _ => none

/-- Total stand-in for .text().unwrap() in the source. On a u64 value the
source panics; that case cannot arise for the event_id field, which only ever
receives text (see Writer.add_event). -/
def Value.textUnwrap : Value → String
  | .str s => s
  | .u64 _ => ""

/-- tv::Document: an ordered list of (field, value) pairs. -/
structure Document where
  field_values : List (Field × Value)
deriving DecidableEq, Repr

/-- Document::default(): the empty document. -/
def Document.default : Document := ⟨[]⟩

/-- Document::add_text. -/
def Document.add_text (d : Document) (f : Field) (s : String) : Document :=
  ⟨d.field_values ++ [(f, Value.str s)]⟩

/-- Document::add_u64. -/
def Document.add_u64 (d : Document) (f : Field) (n : Nat) : Document :=
  ⟨d.field_values ++ [(f, Value.u64 n)]⟩

/-- Document::get_first: the first value carried under the given field. -/
def Document.get_first (d : Document) (f : Field) : Option Value :=
  (d.field_values.find? (fun p => p.1 == f)).map Prod.snd

/-- Opaque handle of a parsed tantivy query. -/
structure Query where
  id : Nat
deriving DecidableEq, Repr

/-- Address of a document inside the index. -/
abbrev DocAddress := Nat

/-- Insertion into a list kept in descending key order: model of the
top-K selection used by the tantivy collectors. -/
def insertDescBy {α β : Type} [LinearOrder β] (key : α → β) (x : α) :
    List α → List α
  | [] => [x]
  | y :: ys => if key y ≤ key x then x :: y :: ys else y :: insertDescBy key x ys

/-- Sort a list into descending key order. -/
def sortDescBy {α β : Type} [LinearOrder β] (key : α → β) : List α → List α
  | [] => []
  | x :: xs => insertDescBy key x (sortDescBy key xs)

/-- tv::LeasedItem of tv::Searcher: an immutable snapshot of the index. The
library internals enter the model as abstract components: which documents a
query matches (with their relevance scores; None models a search error), the
u64 fast-field columns, and the stored-document store (None models a failed
document fetch). -/
structure LeasedSearcher where
  matching : Query → Option (List (Rat × DocAddress))
  fastField : Field → DocAddress → Nat
  store : DocAddress → Option Document

/-- Searcher::search with collector TopDocs::with_limit(limit): the top limit
matching documents by relevance score, descending. -/
def LeasedSearcher.searchTopDocs (s : LeasedSearcher) (q : Query) (limit : Nat) :
    Option (List (Rat × DocAddress)) :=
  (s.matching q).map (fun hits => (sortDescBy Prod.fst hits).take limit)

/-- Searcher::search with collector
TopDocs::with_limit(limit).order_by_u64_field(f): the top limit matching
documents by the u64 fast field f, descending, paired with the field value;
the relevance score is dropped by the collector. -/
def LeasedSearcher.searchTopDocsByU64 (s : LeasedSearcher) (q : Query)
    (limit : Nat) (f : Field) : Option (List (Nat × DocAddress)) :=
  (s.matching q).map (fun hits =>
    (sortDescBy Prod.fst (hits.map (fun h => (s.fastField f h.2, h.2)))).take limit)

/-- tv::query::QueryParser: the default-field set it was built with, plus the
parse behaviour (None models a parse error). -/
structure QueryParser where
  default_fields : List Field
  parse_impl : String → Option Query

/-- QueryParser::parse_query. -/
def QueryParser.parse_query (p : QueryParser) (term : String) : Option Query :=
  p.parse_impl term

/-- Error type of the external library (tv::Error), kept opaque. -/
inductive TvError where
  | err
deriving DecidableEq, Repr

/-- tv::IndexWriter: the heap budget it was created with and the staged
(uncommitted) documents. -/
structure TvIndexWriter where
  heap_size : Nat
  pending : List Document

/-- IndexWriter::add_document: stages a document. -/
def TvIndexWriter.add_document (w : TvIndexWriter) (doc : Document) :
    TvIndexWriter :=
  { w with pending := w.pending ++ [doc] }

/-- tv::Index: the schema it was opened with, the parsing behaviour that
QueryParser::for_index derives for a default-field set, and whether creating
a writer currently fails (an external condition, e.g. the writer lock). -/
structure TvIndex where
  schema : Schema
  parser_impl : List Field → String → Option Query
  writer_err : Option TvError

/-- tv::Index::writer(heap_size): a fresh writer with the given heap budget,
unless writer creation fails. -/
def TvIndex.writer (i : TvIndex) (heap_size : Nat) :
    Except TvError TvIndexWriter :=
  match i.writer_err with
  | some e => Except.error e
  | none => Except.ok ⟨heap_size, []⟩

/-- QueryParser::for_index: a parser scoped to the given default fields. -/
def QueryParser.for_index (i : TvIndex) (fields : List Field) : QueryParser :=
  ⟨fields, i.parser_impl fields⟩

/-- tv::IndexReader: holds the current snapshot searcher. -/
structure TvIndexReader where
  current : LeasedSearcher

/-- IndexReader::searcher(): lease the current snapshot. -/
def TvIndexReader.searcher (r : TvIndexReader) : LeasedSearcher := r.current

/-- tv::directory::MmapDirectory handle (opaque: the open itself is an
external effect). -/
structure MmapDirectory where
  token : Unit

/-! The seshat index layer (src/index.rs). -/

/-- The Index struct of src/index.rs. -/
structure Index where
  index : TvIndex
  reader : TvIndexReader
  body_field : Field
  topic_field : Field
  name_field : Field
  event_id_field : Field
  room_id_field : Field
  server_timestamp_field : Field

/-- The Writer struct of src/index.rs. -/
structure Writer where
  inner : TvIndexWriter
  body_field : Field
  event_id_field : Field
  room_id_field : Field
  server_timestamp_field : Field

/-- Writer::add_event: builds a document carrying body, event_id, room_id and
server_timestamp, and stages it on the inner writer. -/
def Writer.add_event (w : Writer) (body : String) (event_id : String)
    (room_id : String) (server_timestamp : Nat) : Writer :=
  let doc := Document.default
  let doc := doc.add_text w.body_field body
  let doc := doc.add_text w.event_id_field event_id
  let doc := doc.add_text w.room_id_field room_id
  let doc := doc.add_u64 w.server_timestamp_field server_timestamp
  { w with inner := w.inner.add_document doc }

/-- The IndexSearcher struct of src/index.rs. -/
structure IndexSearcher where
  inner : LeasedSearcher
  event_id_field : Field
  server_timestamp_field : Field
  queryParser : QueryParser

/-- The room rewriting at the top of IndexSearcher::search: with a room the
term becomes format!("{} AND room_id:\"{}\"", term, room), without one it is
passed unchanged. -/
def roomQueryTerm (term : String) (room_id : Option RoomId) : String :=
  match room_id with
  | some room => term ++ " AND room_id:\"" ++ room ++ "\""
  | none => term

/-- The result-collection loop of the order_by_recent branch of
IndexSearcher::search: for each (discarded fast-field value, address), fetch
the document, read the stored event_id, and emit (1.0, event_id); a failed
fetch or a missing event_id skips the hit. -/
def collectRecentLoop (s : IndexSearcher) :
    List (Nat × DocAddress) → List (Rat × EventId)
  | [] => []
  | (_, docaddress) :: rest =>
    match s.inner.store docaddress with
    | none => collectRecentLoop s rest
    | some doc =>
      match doc.get_first s.event_id_field with
      | none => collectRecentLoop s rest
      | some v => (1, v.textUnwrap) :: collectRecentLoop s rest

/-- The result-collection loop of the relevance branch of
IndexSearcher::search: for each (score, address), fetch the document, read the
stored event_id, and emit (score, event_id); a failed fetch or a missing
event_id skips the hit. -/
def collectScoreLoop (s : IndexSearcher) :
    List (Rat × DocAddress) → List (Rat × EventId)
  | [] => []
  | (score, docaddress) :: rest =>
    match s.inner.store docaddress with
    | none => collectScoreLoop s rest
    | some doc =>
      match doc.get_first s.event_id_field with
      | none => collectScoreLoop s rest
      | some v => (score, v.textUnwrap) :: collectScoreLoop s rest

/-- The body of IndexSearcher::search after the term has been parsed: a parse
error returns the empty vector, otherwise the branch on order_by_recent runs
its collector and collection loop (a search error also returns empty). -/
def IndexSearcher.searchAfterParse (s : IndexSearcher) (parsed : Option Query)
    (limit : Nat) (order_by_recent : Bool) : List (Rat × EventId) :=
  match parsed with
  | none => []
  | some query =>
    if order_by_recent then
      match s.inner.searchTopDocsByU64 query limit s.server_timestamp_field with
      | none => []
      | some result => collectRecentLoop s result
    else
      match s.inner.searchTopDocs query limit with
      | none => []
      | some result => collectScoreLoop s result

/-- IndexSearcher::search of src/index.rs. -/
def IndexSearcher.search (s : IndexSearcher) (term : String) (limit : Nat)
    (order_by_recent : Bool) (room_id : Option RoomId) : List (Rat × EventId) :=
  let term := roomQueryTerm term room_id
  s.searchAfterParse (s.queryParser.parse_query term) limit order_by_recent

/-- The schema-building prefix of Index::new: the built schema together with
the six field handles, in source order body, topic, name, room_id,
server_timestamp, event_id. -/
def indexNewSchemaParts :
    Schema × Field × Field × Field × Field × Field × Field :=
  let schemabuilder : SchemaBuilder := ⟨[]⟩
  let (body_field, schemabuilder) := schemabuilder.add_text_field "body" TEXT
  let (topic_field, schemabuilder) := schemabuilder.add_text_field "topic" TEXT
  let (name_field, schemabuilder) := schemabuilder.add_text_field "name" TEXT
  let (room_id_field, schemabuilder) :=
    schemabuilder.add_text_field "room_id" TEXT
  let (server_timestamp_field, schemabuilder) :=
    schemabuilder.add_u64_field "server_timestamp" FAST
  let (event_id_field, schemabuilder) :=
    schemabuilder.add_text_field "event_id" STORED
  (schemabuilder.build, body_field, topic_field, name_field, room_id_field,
    server_timestamp_field, event_id_field)

/-- Index::new. The filesystem-dependent steps (MmapDirectory::open,
tv::Index::open_or_create, tv::Index::reader) are external effects and enter
the model as parameters; the schema construction is indexNewSchemaParts. -/
def Index.new (open_dir : Except TvError MmapDirectory)
    (open_or_create : MmapDirectory → Schema → Except TvError TvIndex)
    (mk_reader : TvIndex → Except TvError TvIndexReader) :
    Except TvError Index := do
  let (schema, body_field, topic_field, name_field, room_id_field,
    server_timestamp_field, event_id_field) := indexNewSchemaParts
  let index_dir ← open_dir
  let index ← open_or_create index_dir schema
  let reader ← mk_reader index
  Except.ok (Index.mk index reader body_field topic_field name_field
    event_id_field room_id_field server_timestamp_field)

/-- Index::get_searcher. -/
def Index.get_searcher (i : Index) : IndexSearcher :=
  let searcher := i.reader.searcher
  let queryParser := QueryParser.for_index i.index
    [i.body_field, i.topic_field, i.name_field, i.room_id_field]
  { inner := searcher, queryParser := queryParser,
    event_id_field := i.event_id_field,
    server_timestamp_field := i.server_timestamp_field }

/-- Index::get_writer: a Writer around tv writer with a 50_000_000 byte heap. -/
def Index.get_writer (i : Index) : Except TvError Writer := do
  let inner ← i.index.writer 50000000
  Except.ok (Writer.mk inner i.body_field i.event_id_field i.room_id_field
    i.server_timestamp_field)

end Seshat

namespace SeshatNode

/-!
Model of the query-argument parsing of the node binding
(seshat-node/native/src/lib.rs, parse_search_object). A neon JS handle is
modelled by the JS value it refers to; a JsString / JsNumber / JsBoolean
handle carries its extracted value, so downcast-then-value chains collapse to
a single partial projection. JS numbers (f64) are modelled as rationals. -/

/-- A JavaScript value as seen through neon handles. -/
inductive JsValue where
  | str (s : String)
  | num (v : Rat)
  | boolean (b : Bool)
  | null
  | undefined
deriving DecidableEq, Repr

/-- downcast to JsString followed by value(): the string, if the value is a
string. -/
def JsValue.downcastString : JsValue → Option String
  | .str s => some s
  | _ => none

/-- downcast to JsNumber followed by value(): the number, if the value is a
number. -/
def JsValue.downcastNumber : JsValue → Option Rat
  | .num v => some v
  | _ => none

/-- downcast to JsBoolean followed by value(): the boolean, if the value is a
boolean. -/
def JsValue.downcastBoolean : JsValue → Option Bool
  | .boolean b => some b
  | _ => none

/-- A thrown JS exception (neon Throw). -/
inductive Throw where
  | throw
deriving DecidableEq, Repr

/-- A plain JS object: its property list, first binding wins. -/
structure JsObject where
  props : List (String × JsValue)

/-- The value of a property: the bound value, or undefined when absent. -/
def JsObject.getValue (o : JsObject) (k : String) : JsValue :=
  ((o.props.find? (fun p => p.1 == k)).map Prod.snd).getD JsValue.undefined

/-- JsObject::get: property access on a plain object always succeeds,
yielding undefined for a missing property. -/
def JsObject.get (o : JsObject) (k : String) : Except Throw JsValue :=
  Except.ok (o.getValue k)

/-- or_throw on a downcast result: a failed downcast becomes a thrown
exception. -/
def or_throw {α : Type} : Option α → Except Throw α
  | some a => Except.ok a
  | none => Except.error Throw.throw

/-- Rust expression (f64) as usize on a 64-bit platform: a saturating cast
truncating toward zero (NaN, which has no rational counterpart, is outside
the model). -/
def f64AsUsize (q : Rat) : Nat :=
  if q < 0 then 0 else min q.floor.toNat (2 ^ 64 - 1)

/-- parse_search_object of seshat-node/native/src/lib.rs. Note the reading of
after_limit: it fetches the before_limit property, exactly as the source
does. -/
def parse_search_object (argument : JsObject) :
    Except Throw (String × Nat × Nat × Nat × Bool × Option String) := do
  let term ← or_throw (← argument.get "search_term").downcastString
  let limit : Nat := f64AsUsize ((← argument.get "limit").downcastNumber.getD 10)
  let before_limit : Nat :=
    f64AsUsize ((← argument.get "before_limit").downcastNumber.getD 0)
  let after_limit : Nat :=
    f64AsUsize ((← argument.get "before_limit").downcastNumber.getD 0)
  let order_by_recent : Bool :=
    (← argument.get "order_by_recent").downcastBoolean.getD false
  let room_id := argument.get "room_id"
  let room_id : Option String :=
    match room_id with
    | Except.ok r =>
      match r.downcastString with
      | some r => some r
      | none => none
    | Except.error _ => none
  Except.ok (term, limit, before_limit, after_limit, order_by_recent, room_id)

end SeshatNode

namespace Seshat

/-! Concrete fixtures, used to instantiate the theorems below on closed
inputs. -/

/-- A stored document carrying an event id under field 5. -/
def sampleDoc (a : Nat) : Document :=
  ⟨[(5, Value.str (String.append "$ev" (toString a)))]⟩

/-- Like sampleDoc but with an extra stored field, agreeing with sampleDoc on
field 5. -/
def sampleDocExtra (a : Nat) : Document :=
  ⟨[(5, Value.str (String.append "$ev" (toString a))), (0, Value.str "body")]⟩

/-- A snapshot with two matching documents for every query. -/
def sampleLeased : LeasedSearcher :=
  { matching := fun _ => some [((1 : Rat)/2, 0), ((3 : Rat)/4, 1)],
    fastField := fun _ a => 100 * (a + 1),
    store := fun a => some (sampleDoc a) }

/-- A parse behaviour that fails on the term "fail" and succeeds elsewhere. -/
def sampleParse : List Field → String → Option Query :=
  fun _ t => if t = "fail" then none else some ⟨0⟩

/-- A concrete searcher. -/
def sampleSearcher : IndexSearcher :=
  { inner := sampleLeased,
    event_id_field := 5,
    server_timestamp_field := 4,
    queryParser := { default_fields := [0, 1, 2, 3],
                     parse_impl := sampleParse [0, 1, 2, 3] } }

/-- External outcomes for Index.new: everything succeeds. -/
def sampleOpenDir : Except TvError MmapDirectory := Except.ok ⟨()⟩

/-- External open_or_create: yields an index carrying the given schema. -/
def sampleOpenIndex : MmapDirectory → Schema → Except TvError TvIndex :=
  fun _ schema => Except.ok ⟨schema, sampleParse, none⟩

/-- External reader construction. -/
def sampleMkReader : TvIndex → Except TvError TvIndexReader :=
  fun _ => Except.ok ⟨sampleLeased⟩

/-- The Index that Index.new returns on the sample externals. -/
def sampleIndex : Index :=
  ⟨⟨indexNewSchemaParts.1, sampleParse, none⟩, ⟨sampleLeased⟩, 0, 1, 2, 5, 3, 4⟩

/-- The Writer that sampleIndex.get_writer returns. -/
def sampleWriter : Writer := ⟨⟨50000000, []⟩, 0, 5, 3, 4⟩

/-- A document store where the fetch of address 7 fails. -/
def sampleStorePartial : DocAddress → Option Document :=
  fun a => if a = 7 then none else some (sampleDoc a)

/-- sampleSearcher with the partial document store. -/
def sampleSearcherPartial : IndexSearcher :=
  { sampleSearcher with inner := { sampleLeased with store := sampleStorePartial } }

end Seshat

namespace SeshatNode

/-- A concrete search-request object carrying every field, with after_limit
deliberately different from before_limit. -/
def sampleArg : JsObject :=
  ⟨[("search_term", JsValue.str "hello"),
    ("limit", JsValue.num 7),
    ("before_limit", JsValue.num 3),
    ("after_limit", JsValue.num 99),
    ("order_by_recent", JsValue.boolean true),
    ("room_id", JsValue.str "!room:example.org")]⟩

end SeshatNode

namespace Seshat

/-! Helper lemmas about the top-K selection model. -/

theorem mem_insertDescBy {α β : Type} [LinearOrder β] (key : α → β) (x a : α)
    (l : List α) : a ∈ insertDescBy key x l ↔ a = x ∨ a ∈ l := by
  induction l with
  | nil => simp [insertDescBy]
  | cons y ys ih =>
    simp only [insertDescBy]
    by_cases h : key y ≤ key x
    · simp [h]
    · simp only [h, if_false, List.mem_cons, ih]
      tauto

theorem length_insertDescBy {α β : Type} [LinearOrder β] (key : α → β) (x : α)
    (l : List α) : (insertDescBy key x l).length = l.length + 1 := by
  induction l with
  | nil => rfl
  | cons y ys ih =>
    simp only [insertDescBy]
    by_cases h : key y ≤ key x <;> simp [h, ih]

theorem pairwise_insertDescBy {α β : Type} [LinearOrder β] (key : α → β)
    (x : α) (l : List α) (h : l.Pairwise (fun a b => key b ≤ key a)) :
    (insertDescBy key x l).Pairwise (fun a b => key b ≤ key a) := by
  induction l with
  | nil => simp [insertDescBy]
  | cons y ys ih =>
    rw [List.pairwise_cons] at h
    simp only [insertDescBy]
    by_cases hc : key y ≤ key x
    · rw [if_pos hc, List.pairwise_cons]
      refine ⟨?_, List.pairwise_cons.mpr h⟩
      intro b hb
      rcases List.mem_cons.mp hb with hb | hb
      · exact hb ▸ hc
      · exact le_trans (h.1 b hb) hc
    · rw [if_neg hc, List.pairwise_cons]
      refine ⟨?_, ih h.2⟩
      intro b hb
      rcases (mem_insertDescBy key x b ys).mp hb with hb | hb
      · exact hb ▸ le_of_lt (not_le.mp hc)
      · exact h.1 b hb

theorem pairwise_sortDescBy {α β : Type} [LinearOrder β] (key : α → β)
    (l : List α) : (sortDescBy key l).Pairwise (fun a b => key b ≤ key a) := by
  induction l with
  | nil => simp [sortDescBy]
  | cons x xs ih => exact pairwise_insertDescBy key x _ ih

theorem mem_sortDescBy {α β : Type} [LinearOrder β] (key : α → β) (a : α)
    (l : List α) : a ∈ sortDescBy key l ↔ a ∈ l := by
  induction l with
  | nil => simp [sortDescBy]
  | cons x xs ih =>
    simp only [sortDescBy, mem_insertDescBy, ih, List.mem_cons]

/-! Helper lemmas about the collection loops. -/

theorem length_collectRecentLoop (s : IndexSearcher)
    (l : List (Nat × DocAddress)) :
    (collectRecentLoop s l).length ≤ l.length := by
  induction l with
  | nil => simp [collectRecentLoop]
  | cons p rest ih =>
    obtain ⟨t, addr⟩ := p
    cases hs : s.inner.store addr with
    | none =>
      simp only [collectRecentLoop, hs]
      exact le_trans ih (Nat.le_succ _)
    | some doc =>
      cases hg : doc.get_first s.event_id_field with
      | none =>
        simp only [collectRecentLoop, hs, hg]
        exact le_trans ih (Nat.le_succ _)
      | some v =>
        simp only [collectRecentLoop, hs, hg, List.length_cons]
        exact Nat.succ_le_succ ih

theorem score_collectRecentLoop (s : IndexSearcher)
    (l : List (Nat × DocAddress)) :
    ∀ p ∈ collectRecentLoop s l, p.1 = (1 : Rat) := by
  induction l with
  | nil => simp [collectRecentLoop]
  | cons p rest ih =>
    obtain ⟨t, addr⟩ := p
    cases hs : s.inner.store addr with
    | none =>
      simp only [collectRecentLoop, hs]
      exact ih
    | some doc =>
      cases hg : doc.get_first s.event_id_field with
      | none =>
        simp only [collectRecentLoop, hs, hg]
        exact ih
      | some v =>
        simp only [collectRecentLoop, hs, hg]
        intro q hq
        rcases List.mem_cons.mp hq with hq | hq
        · rw [hq]
        · exact ih q hq

theorem length_collectScoreLoop (s : IndexSearcher)
    (l : List (Rat × DocAddress)) :
    (collectScoreLoop s l).length ≤ l.length := by
  induction l with
  | nil => simp [collectScoreLoop]
  | cons p rest ih =>
    obtain ⟨sc, addr⟩ := p
    cases hs : s.inner.store addr with
    | none =>
      simp only [collectScoreLoop, hs]
      exact le_trans ih (Nat.le_succ _)
    | some doc =>
      cases hg : doc.get_first s.event_id_field with
      | none =>
        simp only [collectScoreLoop, hs, hg]
        exact le_trans ih (Nat.le_succ _)
      | some v =>
        simp only [collectScoreLoop, hs, hg, List.length_cons]
        exact Nat.succ_le_succ ih

theorem mem_collectScoreLoop (s : IndexSearcher)
    (l : List (Rat × DocAddress)) :
    ∀ p ∈ collectScoreLoop s l, ∃ da, (p.1, da) ∈ l := by
  induction l with
  | nil => simp [collectScoreLoop]
  | cons hd rest ih =>
    obtain ⟨sc, addr⟩ := hd
    cases hs : s.inner.store addr with
    | none =>
      simp only [collectScoreLoop, hs]
      intro p hp
      obtain ⟨da, hda⟩ := ih p hp
      exact ⟨da, List.mem_cons_of_mem _ hda⟩
    | some doc =>
      cases hg : doc.get_first s.event_id_field with
      | none =>
        simp only [collectScoreLoop, hs, hg]
        intro p hp
        obtain ⟨da, hda⟩ := ih p hp
        exact ⟨da, List.mem_cons_of_mem _ hda⟩
      | some v =>
        simp only [collectScoreLoop, hs, hg]
        intro p hp
        rcases List.mem_cons.mp hp with hp | hp
        · exact ⟨addr, by rw [hp]; exact List.mem_cons_self _ _⟩
        · obtain ⟨da, hda⟩ := ih p hp
          exact ⟨da, List.mem_cons_of_mem _ hda⟩

end Seshat

namespace Seshat

theorem collectRecentLoop_store_congr (s : IndexSearcher)
    (store2 : DocAddress → Option Document)
    (h : ∀ addr, (s.inner.store addr).map (fun d => d.get_first s.event_id_field)
        = (store2 addr).map (fun d => d.get_first s.event_id_field))
    (l : List (Nat × DocAddress)) :
    collectRecentLoop { s with inner := { s.inner with store := store2 } } l
      = collectRecentLoop s l := by
  induction l with
  | nil => rfl
  | cons p rest ih =>
    obtain ⟨t, addr⟩ := p
    have ha := h addr
    cases hs : s.inner.store addr with
    | none =>
      rw [hs] at ha
      cases hs2 : store2 addr with
      | none => simp only [collectRecentLoop, hs, hs2]; exact ih
      | some d2 => rw [hs2] at ha; simp at ha
    | some d =>
      rw [hs] at ha
      cases hs2 : store2 addr with
      | none => rw [hs2] at ha; simp at ha
      | some d2 =>
        rw [hs2] at ha
        simp only [Option.map_some'] at ha
        have hg : d2.get_first s.event_id_field = d.get_first s.event_id_field :=
          (Option.some.inj ha).symm
        simp only [collectRecentLoop, hs, hs2, hg]
        cases d.get_first s.event_id_field with
        | none => exact ih
        | some v => rw [ih]

theorem collectScoreLoop_store_congr (s : IndexSearcher)
    (store2 : DocAddress → Option Document)
    (h : ∀ addr, (s.inner.store addr).map (fun d => d.get_first s.event_id_field)
        = (store2 addr).map (fun d => d.get_first s.event_id_field))
    (l : List (Rat × DocAddress)) :
    collectScoreLoop { s with inner := { s.inner with store := store2 } } l
      = collectScoreLoop s l := by
  induction l with
  | nil => rfl
  | cons p rest ih =>
    obtain ⟨sc, addr⟩ := p
    have ha := h addr
    cases hs : s.inner.store addr with
    | none =>
      rw [hs] at ha
      cases hs2 : store2 addr with
      | none => simp only [collectScoreLoop, hs, hs2]; exact ih
      | some d2 => rw [hs2] at ha; simp at ha
    | some d =>
      rw [hs] at ha
      cases hs2 : store2 addr with
      | none => rw [hs2] at ha; simp at ha
      | some d2 =>
        rw [hs2] at ha
        simp only [Option.map_some'] at ha
        have hg : d2.get_first s.event_id_field = d.get_first s.event_id_field :=
          (Option.some.inj ha).symm
        simp only [collectScoreLoop, hs, hs2, hg]
        cases d.get_first s.event_id_field with
        | none => exact ih
        | some v => rw [ih]

end Seshat

namespace SeshatNode

theorem getValue_cons_of_ne (k q : String) (v : JsValue)
    (props : List (String × JsValue)) (h : (q == k) = false) :
    JsObject.getValue ⟨(q, v) :: props⟩ k = JsObject.getValue ⟨props⟩ k := by
  simp [JsObject.getValue, List.find?, h]

theorem parse_search_object_closed (o : JsObject) :
    parse_search_object o =
      match (o.getValue "search_term").downcastString with
      | none => Except.error Throw.throw
      | some term =>
        Except.ok (term,
          f64AsUsize (((o.getValue "limit").downcastNumber).getD 10),
          f64AsUsize (((o.getValue "before_limit").downcastNumber).getD 0),
          f64AsUsize (((o.getValue "before_limit").downcastNumber).getD 0),
          ((o.getValue "order_by_recent").downcastBoolean).getD false,
          (o.getValue "room_id").downcastString) := by
  cases hterm : (o.getValue "search_term").downcastString with
  | none =>
    simp [parse_search_object, JsObject.get, or_throw, hterm, Bind.bind,
      Except.bind]
  | some term =>
    cases hroom : (o.getValue "room_id").downcastString with
    | none =>
      simp [parse_search_object, JsObject.get, or_throw, hterm, hroom,
        Bind.bind, Except.bind]
    | some r =>
      simp [parse_search_object, JsObject.get, or_throw, hterm, hroom,
        Bind.bind, Except.bind]

theorem f64AsUsize_ten : f64AsUsize 10 = 10 := by decide

theorem f64AsUsize_zero : f64AsUsize 0 = 0 := by decide

end SeshatNode

namespace Seshat

/-- C2: for every search term, limit, order flag and optional room id, if the
query parser fails on the (possibly room-rewritten) term,
IndexSearcher.search returns the empty result list instead of surfacing an
error. -/
theorem search_parse_error_returns_empty (s : IndexSearcher) (term : String)
    (limit : Nat) (order_by_recent : Bool) (room_id : Option RoomId)
    (h : s.queryParser.parse_query (roomQueryTerm term room_id) = none) :
    s.search term limit order_by_recent room_id = [] := by
  simp only [IndexSearcher.search, h, IndexSearcher.searchAfterParse]

/-- Witness for C2: a concrete searcher on a term its parser rejects. -/
theorem search_parse_error_returns_empty_witness :
    sampleSearcher.queryParser.parse_query (roomQueryTerm "fail" none) = none
    ∧ sampleSearcher.search "fail" 37 true none = [] :=
  ⟨by decide,
    search_parse_error_returns_empty sampleSearcher "fail" 37 true none
      (by decide)⟩

/-- C3: with a room id, the string handed to the query parser is the original
term followed by the AND room_id filter clause; without one the term is
parsed unchanged; and the room id influences the result only through that
rewritten string, not through any post-filtering of results. -/
theorem search_room_scoping (s : IndexSearcher) (term : String) (limit : Nat)
    (order_by_recent : Bool) :
    (∀ room : RoomId,
      s.search term limit order_by_recent (some room) =
        s.searchAfterParse
          (s.queryParser.parse_query
            (term ++ " AND room_id:\"" ++ room ++ "\""))
          limit order_by_recent)
    ∧ (s.search term limit order_by_recent none =
        s.searchAfterParse (s.queryParser.parse_query term) limit
          order_by_recent)
    ∧ (∀ room room2 : RoomId,
      s.queryParser.parse_query (roomQueryTerm term (some room)) =
        s.queryParser.parse_query (roomQueryTerm term (some room2)) →
      s.search term limit order_by_recent (some room) =
        s.search term limit order_by_recent (some room2)) := by
  refine ⟨fun room => rfl, rfl, fun room room2 h => ?_⟩
  simp only [IndexSearcher.search, h]

/-- Witness for C3: two rooms whose rewritten terms parse alike give the same
results. -/
theorem search_room_scoping_witness :
    sampleSearcher.queryParser.parse_query (roomQueryTerm "Test" (some "!a")) =
      sampleSearcher.queryParser.parse_query (roomQueryTerm "Test" (some "!b"))
    ∧ sampleSearcher.search "Test" 10 false (some "!a") =
        sampleSearcher.search "Test" 10 false (some "!b") :=
  ⟨by decide,
    (search_room_scoping sampleSearcher "Test" 10 false).2.2 "!a" "!b"
      (by decide)⟩

end Seshat

namespace SeshatNode

/-- C1: parse_search_object sources after_limit from the before_limit
property of the request object: the parsed after_limit always equals the
parsed before_limit, and the after_limit property of the request object is
never read (overriding it changes nothing). -/
theorem parse_after_limit_mirrors_before_limit :
    (∀ (o : JsObject) (t : String) (l bl al : Nat) (obr : Bool)
      (rid : Option String),
      parse_search_object o = Except.ok (t, l, bl, al, obr, rid) → al = bl)
    ∧ (∀ (o : JsObject) (v : JsValue),
      parse_search_object ⟨("after_limit", v) :: o.props⟩ =
        parse_search_object o) := by
  constructor
  · intro o t l bl al obr rid h
    rw [parse_search_object_closed o] at h
    cases hterm : (o.getValue "search_term").downcastString with
    | none => rw [hterm] at h; exact absurd h (by simp)
    | some term =>
      rw [hterm] at h
      simp only [Except.ok.injEq, Prod.mk.injEq] at h
      obtain ⟨-, -, hbl, hal, -, -⟩ := h
      rw [← hbl, ← hal]
  · intro o v
    rw [parse_search_object_closed, parse_search_object_closed]
    rw [getValue_cons_of_ne "search_term" "after_limit" v o.props (by decide),
      getValue_cons_of_ne "limit" "after_limit" v o.props (by decide),
      getValue_cons_of_ne "before_limit" "after_limit" v o.props (by decide),
      getValue_cons_of_ne "order_by_recent" "after_limit" v o.props
        (by decide),
      getValue_cons_of_ne "room_id" "after_limit" v o.props (by decide)]

/-- Witness for C1: on a request whose after_limit property is 99 and whose
before_limit is 3, the parsed after_limit is the before_limit value. -/
theorem parse_after_limit_mirrors_before_limit_witness :
    (3 : Nat) = 3
    ∧ parse_search_object ⟨("after_limit", JsValue.num 99) :: sampleArg.props⟩ =
        parse_search_object sampleArg :=
  ⟨parse_after_limit_mirrors_before_limit.1 sampleArg "hello" 7 3 3 true
      (some "!room:example.org") (by rfl),
    parse_after_limit_mirrors_before_limit.2 sampleArg (JsValue.num 99)⟩

/-- C10: parse_search_object throws exactly when search_term is missing or
not a string; every other field degrades to a default: limit to 10,
before_limit (and the after_limit read from it) to 0, order_by_recent to
false, and a missing or non-string room_id to None. -/
theorem parse_search_object_defaults (o : JsObject) :
    ((parse_search_object o).isOk ↔
      ((o.getValue "search_term").downcastString).isSome)
    ∧ (∀ term : String,
      (o.getValue "search_term").downcastString = some term →
      parse_search_object o =
        Except.ok (term,
          (match (o.getValue "limit").downcastNumber with
            | some q => f64AsUsize q
            | none => 10),
          (match (o.getValue "before_limit").downcastNumber with
            | some q => f64AsUsize q
            | none => 0),
          (match (o.getValue "before_limit").downcastNumber with
            | some q => f64AsUsize q
            | none => 0),
          ((o.getValue "order_by_recent").downcastBoolean).getD false,
          (o.getValue "room_id").downcastString)) := by
  constructor
  · rw [parse_search_object_closed o]
    cases (o.getValue "search_term").downcastString <;>
      simp [Except.isOk, Except.toBool]
  · intro term hterm
    rw [parse_search_object_closed o, hterm]
    cases hl : (o.getValue "limit").downcastNumber <;>
      cases hb : (o.getValue "before_limit").downcastNumber <;>
        simp [hl, hb, f64AsUsize_ten, f64AsUsize_zero]

/-- Witness for C10: an object carrying only search_term parses with all the
defaults. -/
theorem parse_search_object_defaults_witness :
    parse_search_object ⟨[("search_term", JsValue.str "hello")]⟩ =
      Except.ok ("hello", 10, 0, 0, false, none) := by
  have h :=
    (parse_search_object_defaults ⟨[("search_term", JsValue.str "hello")]⟩).2
      "hello" (by rfl)
  simpa using h

end SeshatNode

namespace Seshat

/-- C4: with order_by_recent = true, IndexSearcher.search runs the collection
loop over the top limit hits taken in descending order of the
server_timestamp fast field; it returns at most limit results, and every
returned score is the placeholder 1.0. -/
theorem search_order_by_recent_recency (s : IndexSearcher) (term : String)
    (limit : Nat) (room_id : Option RoomId) (q : Query)
    (hits : List (Rat × DocAddress))
    (hq : s.queryParser.parse_query (roomQueryTerm term room_id) = some q)
    (hh : s.inner.matching q = some hits) :
    s.search term limit true room_id =
      collectRecentLoop s
        ((sortDescBy Prod.fst (hits.map
          (fun h => (s.inner.fastField s.server_timestamp_field h.2, h.2)))).take
          limit)
    ∧ ((sortDescBy Prod.fst (hits.map
        (fun h => (s.inner.fastField s.server_timestamp_field h.2, h.2)))).take
          limit).Pairwise (fun a b => b.1 ≤ a.1)
    ∧ (s.search term limit true room_id).length ≤ limit
    ∧ ∀ p ∈ s.search term limit true room_id, p.1 = (1 : Rat) := by
  have hsearch : s.search term limit true room_id =
      collectRecentLoop s
        ((sortDescBy Prod.fst (hits.map
          (fun h => (s.inner.fastField s.server_timestamp_field h.2, h.2)))).take
          limit) := by
    simp [IndexSearcher.search, hq, IndexSearcher.searchAfterParse,
      LeasedSearcher.searchTopDocsByU64, hh]
  refine ⟨hsearch, ?_, ?_, ?_⟩
  · exact (pairwise_sortDescBy Prod.fst _).sublist (List.take_sublist _ _)
  · rw [hsearch]
    refine le_trans (length_collectRecentLoop s _) ?_
    rw [List.length_take]
    exact min_le_left _ _
  · intro p hp
    rw [hsearch] at hp
    exact score_collectRecentLoop s _ p hp

/-- Witness for C4: a concrete recency-ordered search in which every
returned score is 1. -/
theorem search_order_by_recent_recency_witness :
    sampleSearcher.queryParser.parse_query (roomQueryTerm "Test" none) =
      some ⟨0⟩
    ∧ sampleSearcher.inner.matching ⟨0⟩ =
        some [((1 : Rat)/2, 0), ((3 : Rat)/4, 1)]
    ∧ ∀ p ∈ sampleSearcher.search "Test" 2 true none, p.1 = (1 : Rat) :=
  ⟨by decide, rfl,
    (search_order_by_recent_recency sampleSearcher "Test" 2 none ⟨0⟩
      [((1 : Rat)/2, 0), ((3 : Rat)/4, 1)] (by decide) rfl).2.2.2⟩

/-- C5: with order_by_recent = false, IndexSearcher.search runs the
collection loop over the top limit hits taken in descending order of
relevance score; it returns at most limit results, and every returned score
is a relevance score of the collector input, preserved unchanged. -/
theorem search_by_relevance_scores (s : IndexSearcher) (term : String)
    (limit : Nat) (room_id : Option RoomId) (q : Query)
    (hits : List (Rat × DocAddress))
    (hq : s.queryParser.parse_query (roomQueryTerm term room_id) = some q)
    (hh : s.inner.matching q = some hits) :
    s.search term limit false room_id =
      collectScoreLoop s ((sortDescBy Prod.fst hits).take limit)
    ∧ ((sortDescBy Prod.fst hits).take limit).Pairwise (fun a b => b.1 ≤ a.1)
    ∧ (s.search term limit false room_id).length ≤ limit
    ∧ ∀ p ∈ s.search term limit false room_id, ∃ da, (p.1, da) ∈ hits := by
  have hsearch : s.search term limit false room_id =
      collectScoreLoop s ((sortDescBy Prod.fst hits).take limit) := by
    simp [IndexSearcher.search, hq, IndexSearcher.searchAfterParse,
      LeasedSearcher.searchTopDocs, hh]
  refine ⟨hsearch, ?_, ?_, ?_⟩
  · exact (pairwise_sortDescBy Prod.fst _).sublist (List.take_sublist _ _)
  · rw [hsearch]
    refine le_trans (length_collectScoreLoop s _) ?_
    rw [List.length_take]
    exact min_le_left _ _
  · intro p hp
    rw [hsearch] at hp
    obtain ⟨da, hda⟩ := mem_collectScoreLoop s _ p hp
    exact ⟨da, (mem_sortDescBy Prod.fst _ _).mp
      ((List.take_sublist _ _).subset hda)⟩

/-- Witness for C5: a concrete relevance-ordered search returning at most one
result. -/
theorem search_by_relevance_scores_witness :
    sampleSearcher.queryParser.parse_query (roomQueryTerm "Test" none) =
      some ⟨0⟩
    ∧ sampleSearcher.inner.matching ⟨0⟩ =
        some [((1 : Rat)/2, 0), ((3 : Rat)/4, 1)]
    ∧ (sampleSearcher.search "Test" 1 false none).length ≤ 1 :=
  ⟨by decide, rfl,
    (search_by_relevance_scores sampleSearcher "Test" 1 none ⟨0⟩
      [((1 : Rat)/2, 0), ((3 : Rat)/4, 1)] (by decide) rfl).2.2.1⟩

end Seshat

namespace Seshat

/-- C6: in both collection loops of IndexSearcher.search, a hit whose
document fetch fails or whose fetched document carries no stored event_id
contributes no entry to the returned list and raises no error: deleting such
a hit from the collected list leaves the output unchanged. -/
theorem search_skips_unfetchable_hits (s : IndexSearcher) (addr : DocAddress)
    (hbad : s.inner.store addr = none
      ∨ ∃ d, s.inner.store addr = some d
          ∧ d.get_first s.event_id_field = none) :
    (∀ (l1 l2 : List (Nat × DocAddress)) (t : Nat),
      collectRecentLoop s (l1 ++ (t, addr) :: l2) =
        collectRecentLoop s (l1 ++ l2))
    ∧ (∀ (l1 l2 : List (Rat × DocAddress)) (sc : Rat),
      collectScoreLoop s (l1 ++ (sc, addr) :: l2) =
        collectScoreLoop s (l1 ++ l2)) := by
  constructor
  · intro l1 l2 t
    induction l1 with
    | nil =>
      rcases hbad with hs | ⟨d, hs, hg⟩
      · simp only [List.nil_append, collectRecentLoop, hs]
      · simp only [List.nil_append, collectRecentLoop, hs, hg]
    | cons x l1 ih =>
      obtain ⟨tx, ax⟩ := x
      cases hs : s.inner.store ax with
      | none =>
        simp only [List.cons_append, collectRecentLoop, hs]
        exact ih
      | some d =>
        cases hg : d.get_first s.event_id_field with
        | none =>
          simp only [List.cons_append, collectRecentLoop, hs, hg]
          exact ih
        | some v =>
          simp only [List.cons_append, collectRecentLoop, hs, hg]
          exact congrArg _ ih
  · intro l1 l2 sc
    induction l1 with
    | nil =>
      rcases hbad with hs | ⟨d, hs, hg⟩
      · simp only [List.nil_append, collectScoreLoop, hs]
      · simp only [List.nil_append, collectScoreLoop, hs, hg]
    | cons x l1 ih =>
      obtain ⟨scx, ax⟩ := x
      cases hs : s.inner.store ax with
      | none =>
        simp only [List.cons_append, collectScoreLoop, hs]
        exact ih
      | some d =>
        cases hg : d.get_first s.event_id_field with
        | none =>
          simp only [List.cons_append, collectScoreLoop, hs, hg]
          exact ih
        | some v =>
          simp only [List.cons_append, collectScoreLoop, hs, hg]
          exact congrArg _ ih

/-- Witness for C6: a store whose fetch of address 7 fails; the hit at
address 7 contributes nothing in either loop. -/
theorem search_skips_unfetchable_hits_witness :
    collectRecentLoop sampleSearcherPartial ([(5, 0)] ++ (9, 7) :: [(3, 1)]) =
      collectRecentLoop sampleSearcherPartial ([(5, 0)] ++ [(3, 1)])
    ∧ collectScoreLoop sampleSearcherPartial
        ([((1 : Rat)/2, 0)] ++ ((9 : Rat), 7) :: [((3 : Rat)/4, 1)]) =
        collectScoreLoop sampleSearcherPartial
          ([((1 : Rat)/2, 0)] ++ [((3 : Rat)/4, 1)]) :=
  ⟨(search_skips_unfetchable_hits sampleSearcherPartial 7
      (Or.inl (by decide))).1 [(5, 0)] [(3, 1)] 9,
    (search_skips_unfetchable_hits sampleSearcherPartial 7
      (Or.inl (by decide))).2 [((1 : Rat)/2, 0)] [((3 : Rat)/4, 1)] 9⟩

/-- C7: the schema built by Index::new declares exactly six fields: body,
topic, name and room_id as tokenized text, server_timestamp as a fast u64,
and event_id as stored only; and the stored event_id is the only
per-document data search reads, so search results are invariant under any
change of the document store that preserves each stored event_id. -/
theorem index_new_schema_and_event_id_only_retrieval :
    indexNewSchemaParts.1 =
      [⟨"body", FieldType.text TEXT⟩, ⟨"topic", FieldType.text TEXT⟩,
        ⟨"name", FieldType.text TEXT⟩, ⟨"room_id", FieldType.text TEXT⟩,
        ⟨"server_timestamp", FieldType.u64 FAST⟩,
        ⟨"event_id", FieldType.text STORED⟩]
    ∧ indexNewSchemaParts.1.length = 6
    ∧ (∀ (s : IndexSearcher) (store2 : DocAddress → Option Document),
      (∀ addr,
        (s.inner.store addr).map (fun d => d.get_first s.event_id_field) =
          (store2 addr).map (fun d => d.get_first s.event_id_field)) →
      ∀ (term : String) (limit : Nat) (order_by_recent : Bool)
        (room_id : Option RoomId),
        IndexSearcher.search
          { s with inner := { s.inner with store := store2 } }
          term limit order_by_recent room_id =
          s.search term limit order_by_recent room_id) := by
  refine ⟨rfl, rfl, ?_⟩
  intro s store2 h term limit order_by_recent room_id
  dsimp only [IndexSearcher.search, IndexSearcher.searchAfterParse,
    LeasedSearcher.searchTopDocs, LeasedSearcher.searchTopDocsByU64]
  cases hp : s.queryParser.parse_query (roomQueryTerm term room_id) with
  | none => rfl
  | some q =>
    cases order_by_recent with
    | true =>
      cases hm : s.inner.matching q with
      | none => simp [hm]
      | some hits =>
        simp only [hm, Option.map_some', if_true]
        exact collectRecentLoop_store_congr s store2 h _
    | false =>
      cases hm : s.inner.matching q with
      | none => simp [hm]
      | some hits =>
        simp only [hm, Option.map_some', if_false]
        exact collectScoreLoop_store_congr s store2 h _

/-- Witness for C7: adding an extra stored field to every document leaves
search results unchanged. -/
theorem index_new_schema_witness :
    IndexSearcher.search
      { sampleSearcher with
        inner := { sampleSearcher.inner with
          store := fun a => some (sampleDocExtra a) } }
      "Test" 10 false none =
      sampleSearcher.search "Test" 10 false none :=
  index_new_schema_and_event_id_only_retrieval.2.2 sampleSearcher
    (fun a => some (sampleDocExtra a)) (fun _ => rfl) "Test" 10 false none

/-- C8: every writer Index::get_writer returns is created with the fixed
segment-writer heap budget of 50_000_000 bytes, whatever the state of the
index. -/
theorem get_writer_heap_budget (i : Index) (w : Writer)
    (h : i.get_writer = Except.ok w) : w.inner.heap_size = 50000000 := by
  unfold Index.get_writer TvIndex.writer at h
  cases hw : i.index.writer_err with
  | some e =>
    rw [hw] at h
    simp [Bind.bind, Except.bind] at h
  | none =>
    rw [hw] at h
    simp only [Bind.bind, Except.bind, Except.ok.injEq] at h
    rw [← h]

/-- Witness for C8: the writer of the sample index carries the 50 MB
budget. -/
theorem get_writer_heap_budget_witness : sampleWriter.inner.heap_size = 50000000 :=
  get_writer_heap_budget sampleIndex sampleWriter rfl

end Seshat

namespace Seshat

theorem index_new_fields (od : Except TvError MmapDirectory)
    (oc : MmapDirectory → Schema → Except TvError TvIndex)
    (mr : TvIndex → Except TvError TvIndexReader) (idx : Index)
    (h : Index.new od oc mr = Except.ok idx) :
    idx.body_field = 0 ∧ idx.topic_field = 1 ∧ idx.name_field = 2
      ∧ idx.room_id_field = 3 ∧ idx.server_timestamp_field = 4
      ∧ idx.event_id_field = 5 := by
  unfold Index.new at h
  cases od with
  | error e => simp [Bind.bind, Except.bind] at h
  | ok dir =>
    simp only [Bind.bind, Except.bind] at h
    cases hoc : oc dir indexNewSchemaParts.1 with
    | error e => rw [hoc] at h; exact absurd h (by simp)
    | ok ix =>
      rw [hoc] at h
      dsimp only at h
      cases hmr : mr ix with
      | error e => rw [hmr] at h; exact absurd h (by simp)
      | ok rd =>
        rw [hmr] at h
        simp only [Except.ok.injEq] at h
        rw [← h]
        exact ⟨rfl, rfl, rfl, rfl, rfl, rfl⟩

theorem get_writer_fields (i : Index) (w : Writer)
    (h : i.get_writer = Except.ok w) :
    w.body_field = i.body_field ∧ w.event_id_field = i.event_id_field
      ∧ w.room_id_field = i.room_id_field
      ∧ w.server_timestamp_field = i.server_timestamp_field := by
  unfold Index.get_writer TvIndex.writer at h
  cases hw : i.index.writer_err with
  | some e => rw [hw] at h; simp [Bind.bind, Except.bind] at h
  | none =>
    rw [hw] at h
    simp only [Bind.bind, Except.bind, Except.ok.injEq] at h
    rw [← h]
    exact ⟨rfl, rfl, rfl, rfl⟩

/-- C9: a document staged by Writer::add_event, on a writer obtained through
Index::get_writer from an Index::new index, carries exactly the body,
event_id, room_id and server_timestamp fields; in particular it never
carries the topic or name fields declared in the schema. -/
theorem add_event_never_writes_topic_or_name
    (od : Except TvError MmapDirectory)
    (oc : MmapDirectory → Schema → Except TvError TvIndex)
    (mr : TvIndex → Except TvError TvIndexReader) (idx : Index) (w : Writer)
    (hidx : Index.new od oc mr = Except.ok idx)
    (hw : idx.get_writer = Except.ok w)
    (body event_id room_id : String) (server_timestamp : Nat) :
    ∃ doc : Document,
      (w.add_event body event_id room_id server_timestamp).inner.pending =
        w.inner.pending ++ [doc]
      ∧ doc.field_values.map Prod.fst =
          [w.body_field, w.event_id_field, w.room_id_field,
            w.server_timestamp_field]
      ∧ ∀ fv ∈ doc.field_values,
          fv.1 ≠ idx.topic_field ∧ fv.1 ≠ idx.name_field := by
  obtain ⟨hb, ht, hn, hr, hs, he⟩ := index_new_fields od oc mr idx hidx
  obtain ⟨hwb, hwe, hwr, hws⟩ := get_writer_fields idx w hw
  refine ⟨⟨[(w.body_field, Value.str body), (w.event_id_field, Value.str event_id),
    (w.room_id_field, Value.str room_id),
    (w.server_timestamp_field, Value.u64 server_timestamp)]⟩, ?_, by simp, ?_⟩
  · simp [Writer.add_event, TvIndexWriter.add_document, Document.default,
      Document.add_text, Document.add_u64]
  · intro fv hfv
    rw [ht, hn]
    simp only [List.mem_cons, List.mem_singleton] at hfv
    rcases hfv with hfv | hfv | hfv | hfv | hfv
    · rw [hfv]; rw [hwb, hb]; exact ⟨by simp, by simp⟩
    · rw [hfv]; rw [hwe, he]; exact ⟨by simp, by simp⟩
    · rw [hfv]; rw [hwr, hr]; exact ⟨by simp, by simp⟩
    · rw [hfv]; rw [hws, hs]; exact ⟨by simp, by simp⟩
    · exact absurd hfv (by simp)

/-- Witness for C9: a concrete add_event on the sample writer stages a
document with exactly the four fields and no topic or name. -/
theorem add_event_never_writes_topic_or_name_witness :
    ∃ doc : Document,
      (sampleWriter.add_event "Test message" "$e:x" "!r:x"
        1516362244026).inner.pending = sampleWriter.inner.pending ++ [doc]
      ∧ doc.field_values.map Prod.fst =
          [sampleWriter.body_field, sampleWriter.event_id_field,
            sampleWriter.room_id_field, sampleWriter.server_timestamp_field]
      ∧ ∀ fv ∈ doc.field_values,
          fv.1 ≠ sampleIndex.topic_field ∧ fv.1 ≠ sampleIndex.name_field :=
  add_event_never_writes_topic_or_name sampleOpenDir sampleOpenIndex
    sampleMkReader sampleIndex sampleWriter rfl rfl "Test message" "$e:x"
    "!r:x" 1516362244026

end Seshat
